import Mathlib

/-!
Verification development for `simple-taiwan-map` (`src/map.py`).

The repository is a single class `MapModel` that wraps a geospatial plotting
library: it builds a figure with one main axes plus six inset axes for
offshore islands, draws county/town boundaries and an optional data-driven
choropleth layer, and attaches a colorbar.

The shallow embedding below translates the drawing pipeline of `src/map.py`
into pure Lean functions.  Library objects (figures, axes, colorbars) are
modelled as records of the configuration the source code requests on them;
plot calls become layers appended to an axes' layer list, in call order.
Machine floats of the source's configuration values are modelled as exact
rationals.  The renderer's state (`self`, plus the plotting library's
figure-allocation behaviour) is threaded explicitly through a `World`
record so that frame effects are visible.
-/

set_option linter.unusedVariables false
set_option maxRecDepth 8000

namespace SimpleTaiwanMap

attribute [local semireducible] Rat.add Rat.mul Rat.inv Rat.sub Rat.ofScientific

/-- A value in a column of a caller-supplied GeoDataFrame: either a number
or a non-numeric (string) cell.  Only these two shapes matter to
`src/map.py`, which reduces a column with `.min()` / `.max()`. -/
inductive ColVal where
  | num (q : ℚ)
  | str (s : String)
deriving DecidableEq

/-- Model of a (Geo)DataFrame as seen by `src/map.py`: an association list
from column names to column values.  The geometry itself never influences
any quantity the specification speaks about, so it is not carried. -/
structure Gdf where
  cols : List (String × List ColVal)
deriving DecidableEq

/-- Column lookup, `gdf[col]`.  `none` models the `KeyError` raised by
pandas when the column is absent. -/
def Gdf.getCol (g : Gdf) (c : String) : Option (List ColVal) :=
  (g.cols.find? (fun p => p.1 == c)).map (fun p => p.2)

/-- `numsOf vs = some qs` iff every cell of the column is numeric. -/
def numsOf : List ColVal → Option (List ℚ)
  | [] => some []
  | ColVal.num q :: rest => (numsOf rest).map (fun qs => q :: qs)
  | ColVal.str _ :: _ => none

/-- `gdf[col].min()` and `gdf[col].max()` as used at `src/map.py:203,255`,
as a pair.  A column with a non-numeric cell makes the call raise (a mixed
column fails in pandas `.min()` itself; an all-string column reduces to a
string and matplotlib's colorbar then fails its finiteness check) —
modelled as `Except.error`.  A present but *empty* column does not raise:
pandas reduces it to `NaN`, modelled `Except.ok none` (non-finite limits).
A non-empty all-numeric column reduces to its exact min and max. -/
def seriesMinMax (vs : List ColVal) : Except String (Option (ℚ × ℚ)) :=
  match numsOf vs with
  | none => Except.error "TypeError: column has no numeric range"
  | some [] => Except.ok none
  | some (q :: qs) => Except.ok (some (qs.foldl min q, qs.foldl max q))

/-- One entry of `config/map_range.json`: a bounding box
`{min_x, max_x, min_y, max_y}` (`src/map.py:59-87` doc). -/
structure Extent where
  min_x : ℚ
  max_x : ℚ
  min_y : ℚ
  max_y : ℚ
deriving DecidableEq

/-- The extent table `self._map_range` with its seven fixed region keys
(`src/map.py:105-130`). -/
structure MapRange where
  taiwan : Extent
  penghu : Extent
  kinmen : Extent
  kinmen_wuqiu : Extent
  lienchiang : Extent
  lienchiang_dongyin : Extent
  lienchiang_juguang : Extent
deriving DecidableEq

/-- One entry of `config/style.json`: `{width, height, dpi}`
(`src/map.py:190-193`). -/
structure Style where
  width : ℚ
  height : ℚ
  dpi : ℚ
deriving DecidableEq

/-- Dictionary lookup in the style table, `self._style_list[name]`;
`none` models the `KeyError`. -/
def lookupStyle (l : List (String × Style)) (k : String) : Option Style :=
  (l.find? (fun p => p.1 == k)).map (fun p => p.2)

/-- Which of the two reference boundary collections a boundary-plot call
draws (`self.county_gdf.boundary` / `self.town_gdf.boundary`). -/
inductive BoundarySource where
  | county
  | town
deriving DecidableEq

/-- One plotting call recorded on an axes, in call order.
`boundary` records a `….boundary.plot(ax=…, linewidth=…, color=…, alpha=…,
zorder=…)` call; `choropleth` records a `gdf.plot(ax=…, column=…, cmap=…,
legend=…, zorder=…)` call.  A `none` zorder means the argument was not
passed (library default). -/
inductive Layer where
  | boundary (src : BoundarySource) (linewidth : ℚ) (color : String)
      (alpha : ℚ) (zorder : Option Nat)
  | choropleth (column : String) (cmap : String) (legend : Bool)
      (zorder : Option Nat)
deriving DecidableEq

/-- Model of a matplotlib `Axes`: the configuration `src/map.py` sets on it.
`xticks`/`yticks` are `some l` after an explicit `set_xticks l` call and
`none` while the library default (automatic ticks) is in force.
`insetBounds` holds the normalized-figure-fraction rectangle for axes
created by `inset_axes`. -/
structure Axes where
  xlim : ℚ × ℚ
  ylim : ℚ × ℚ
  xticks : Option (List ℚ)
  yticks : Option (List ℚ)
  axisVisible : Bool
  insetBounds : Option (List ℚ)
  layers : List Layer
deriving DecidableEq

/-- A fresh axes as produced by `plt.subplots` / `inset_axes`, before any
configuration. -/
def mkAxes : Axes :=
  { xlim := (0, 1), ylim := (0, 1), xticks := none, yticks := none,
    axisVisible := true, insetBounds := none, layers := [] }

instance : Inhabited Axes := ⟨mkAxes⟩

/-- `ax.set_xlim(lo, hi)`. -/
def Axes.set_xlim (a : Axes) (lo hi : ℚ) : Axes := { a with xlim := (lo, hi) }

/-- `ax.set_ylim(lo, hi)`. -/
def Axes.set_ylim (a : Axes) (lo hi : ℚ) : Axes := { a with ylim := (lo, hi) }

/-- `ax.set_xticks(ts)`. -/
def Axes.set_xticks (a : Axes) (ts : List ℚ) : Axes := { a with xticks := some ts }

/-- `ax.set_yticks(ts)`. -/
def Axes.set_yticks (a : Axes) (ts : List ℚ) : Axes := { a with yticks := some ts }

/-- `ax.axis("off")`. -/
def Axes.axis_off (a : Axes) : Axes := { a with axisVisible := false }

/-- `ax.inset_axes(bounds)`: a fresh child axes positioned at the given
normalized rectangle of the parent. -/
def Axes.inset_axes (a : Axes) (bounds : List ℚ) : Axes :=
  { mkAxes with insetBounds := some bounds }

/-- Append a plotting call to an axes. -/
def Axes.addLayer (a : Axes) (l : Layer) : Axes :=
  { a with layers := a.layers ++ [l] }

/-- `….boundary.plot(ax=a, linewidth=lw, color=c, alpha=al, zorder=z)`. -/
def Axes.plotBoundaryOf (a : Axes) (src : BoundarySource) (lw : ℚ)
    (color : String) (alpha : ℚ) (zorder : Option Nat) : Axes :=
  a.addLayer (Layer.boundary src lw color alpha zorder)

/-- `gdf.plot(ax=a, column=c, cmap=cm, legend=lg, zorder=z)`. -/
def Axes.plotColumn (a : Axes) (c : String) (cm : String) (lg : Bool)
    (zorder : Option Nat) : Axes :=
  a.addLayer (Layer.choropleth c cm lg zorder)

/-- Model of the colorbar object configured by `MapModel._colorbar`
(`src/map.py:132-164`): the scalar-mappable's normalisation range and
colormap, the `plt.colorbar` keyword arguments, and the tick styling the
method installs (font for the tick labels, `labelsize`, the `"{:,.0f}"`
formatter and the `MaxNLocator(nbins=6)` locator). -/
structure Colorbar where
  vmin : ℚ
  vmax : ℚ
  cmap : String
  orientation : String
  pad : ℚ
  shrink : ℚ
  labelsize : ℚ
  tickLabelFont : String
  formatter : ℚ → String
  locatorNBins : Nat

/-- Model of a matplotlib `Figure`: the size/dpi it was created with, an
allocation identifier (distinct per `plt.subplots` call), every axes living
on the figure in creation order (`fig.axes` — note that `plt.colorbar`
appends the colorbar's own axes to this list), and the colorbars attached
to it. -/
structure Figure where
  width : ℚ
  height : ℚ
  dpi : ℚ
  figId : Nat
  axes : List Axes
  colorbars : List Colorbar

/-- The extra `Axes` that matplotlib's `plt.colorbar(…, ax=ax)` creates on
the figure to host the colorbar (it steals space next to `ax`). -/
def colorbarAxes : Axes := mkAxes

/-- The renderer's loaded reference state (`MapModel.__init__`,
`src/map.py:36-57`): the two boundary collections, the font resource, the
extent table and the style table.  Construction itself (file I/O) is not
modelled; claims quantify over an arbitrary successfully-constructed model. -/
structure MapModel where
  crs : String
  county_gdf : Gdf
  town_gdf : Gdf
  font : String
  _map_range : MapRange
  _style_list : List (String × Style)

/-- The mutable world a draw call runs in: the renderer object plus the
plotting library's figure-allocation counter (`plt.subplots` hands out a
fresh figure each call). -/
structure World where
  model : MapModel
  nextFigId : Nat

/-- Embedding of `MapModel._inset_zoom_in_map` (`src/map.py:59-87`):
create an inset axes at `bounds`, clip it to the zoom-in range, and
suppress both tick lists. -/
def MapModel._inset_zoom_in_map (m : MapModel) (ax : Axes) (bounds : List ℚ)
    (zoom_in_range : Extent) : Axes :=
  let add_ax := ax.inset_axes bounds
  let add_ax := add_ax.set_xlim zoom_in_range.min_x zoom_in_range.max_x
  let add_ax := add_ax.set_ylim zoom_in_range.min_y zoom_in_range.max_y
  let add_ax := add_ax.set_xticks []
  let add_ax := add_ax.set_yticks []
  add_ax

/-- Embedding of `MapModel._set_subset_map_range` (`src/map.py:89-130`):
clip the main axes to the `taiwan` extent and create the six insets at
their fixed normalized rectangles, returning the ordered seven-axes list. -/
def MapModel._set_subset_map_range (m : MapModel) (ax : Axes) : List Axes :=
  let map_range := m._map_range
  let ax := ax.set_xlim map_range.taiwan.min_x map_range.taiwan.max_x
  let ax := ax.set_ylim map_range.taiwan.min_y map_range.taiwan.max_y
  let pen := m._inset_zoom_in_map ax [0.02, 0.25, 0.25, 0.40] map_range.penghu
  let kin := m._inset_zoom_in_map ax [0.02, 0.58, 0.25, 0.25] map_range.kinmen
  let kin_wuqiu := m._inset_zoom_in_map ax [0.22, 0.69, 0.06, 0.06] map_range.kinmen_wuqiu
  let lie := m._inset_zoom_in_map ax [0.02, 0.734, 0.25, 0.25] map_range.lienchiang
  let lie_dongyin := m._inset_zoom_in_map ax [0.22, 0.87, 0.06, 0.06] map_range.lienchiang_dongyin
  let lie_juguang := m._inset_zoom_in_map ax [0.22, 0.80, 0.06, 0.06] map_range.lienchiang_juguang
  [ax, pen, kin, kin_wuqiu, lie, lie_dongyin, lie_juguang]

/-- Python's `"{:,.0f}"` rounds its (real) argument to the nearest integer,
ties to even. -/
def roundHalfEven (q : ℚ) : ℤ :=
  let f := ⌊q⌋
  let r := q - (f : ℚ)
  if r < 1 / 2 then f
  else if 1 / 2 < r then f + 1
  else if f % 2 = 0 then f else f + 1

/-- Decimal digits of a natural number, least significant first; the fuel
argument bounds the recursion depth (any `fuel ≥ n` is exact). -/
def natDigitsRev : Nat → Nat → List Nat
  | 0, _ => []
  | fuel + 1, n => if n < 10 then [n] else n % 10 :: natDigitsRev fuel (n / 10)

/-- Insert thousands separators into a least-significant-first digit list,
producing least-significant-first characters. -/
def commaLSF : List Nat → Nat → List Char
  | [], _ => []
  | [d], _ => [Nat.digitChar d]
  | d :: ds, i =>
    if i % 3 = 2 then Nat.digitChar d :: ',' :: commaLSF ds (i + 1)
    else Nat.digitChar d :: commaLSF ds (i + 1)

/-- Model of Python's `"{:,.0f}".format(x)` on an exact rational: round
half-to-even to an integer and group the digits in threes with commas.
(The IEEE-754 artefact of a signed negative zero, e.g. `format(-0.4)`
giving `"-0"`, is not modelled.) -/
def pyFormatCommaF0 (x : ℚ) : String :=
  let n := roundHalfEven x
  let s := String.mk ((commaLSF (natDigitsRev (n.natAbs + 1) n.natAbs) 0).reverse)
  if n < 0 then "-" ++ s else s

/-- The smallest positive normal IEEE-754 double, `np.finfo(float).tiny`
`= 2 ^ (-1022)`, as an exact rational. -/
def dblTiny : ℚ := 1 / ((2 ^ 1022 : ℕ) : ℚ)

/-- `matplotlib.transforms.nonsingular(vmin, vmax, expander, tiny)` for
finite inputs: swap a reversed interval, replace an interval of negligible
magnitude by `(-expander, expander)`, expand a degenerate interval outward
by a relative `expander`, and otherwise return it unchanged.  The program
reaches it twice: `MaxNLocator.tick_values` calls it with
`expander=1e-13, tiny=1e-14`, and `Colorbar._process_values` (run inside
`plt.colorbar`, `src/map.py:155`) calls it on the requested `Normalize`
range with `expander=0.1` and the default `tiny=1e-15`. -/
def nonsingular (expander tiny vmin vmax : ℚ) : ℚ × ℚ :=
  let p := if vmax < vmin then (vmax, vmin) else (vmin, vmax)
  let vlo := p.1
  let vhi := p.2
  let maxabsvalue := max |vlo| |vhi|
  if maxabsvalue < ((10 : ℚ) ^ (6 : ℕ) / tiny) * dblTiny then
    (-expander, expander)
  else if vhi - vlo ≤ maxabsvalue * tiny then
    (if vhi = 0 ∧ vlo = 0 then (-expander, expander)
     else (vlo - expander * |vlo|, vhi + expander * |vhi|))
  else (vlo, vhi)

/-- `nonsingular` including its leading finiteness check: non-finite
limits (`NaN` from an empty column's min/max, modelled `none`) are
replaced by `(-expander, expander)` before any other processing. -/
def nonsingularOpt (expander tiny : ℚ) (vmin vmax : Option ℚ) : ℚ × ℚ :=
  match vmin, vmax with
  | some a, some b => nonsingular expander tiny a b
  | _, _ => (-expander, expander)

/-- Embedding of `MapModel._colorbar` (`src/map.py:132-164`): build a
scalar mappable normalised to `[vmin, vmax]` with the given colormap,
attach a vertical colorbar with `pad=-0.05, shrink=0.5`, put the loaded
font on its tick labels, set `labelsize=12`, install the `"{:,.0f}"`
formatter and a `MaxNLocator(nbins=6)` locator.  The float limits `vmin`,
`vmax` are `Option ℚ` (`none` = `NaN`, from an empty column's min/max).
The colorbar's effective range is not the requested `Normalize(vmin,
vmax)`: creating the colorbar runs `Colorbar._process_values`, which
regularises the norm's range with `nonsingular(expander=0.1)` — a
degenerate range `(v, v)` becomes `(v - 0.1|v|, v + 0.1|v|)` and
non-finite limits become `(-0.1, 0.1)`.  The record holds that effective
range. -/
def MapModel._colorbar (m : MapModel) (ax : Axes) (vmin vmax : Option ℚ)
    (cmap : String) : Colorbar :=
  let p := nonsingularOpt (1 / 10) (1 / 10 ^ (15 : ℕ)) vmin vmax
  { vmin := p.1, vmax := p.2, cmap := cmap, orientation := "vertical",
    pad := -0.05, shrink := 0.5, labelsize := 12, tickLabelFont := m.font,
    formatter := pyFormatCommaF0, locatorNBins := 6 }

/-- The colormap defaulting at `src/map.py:199,246`:
`cmap = cmap if cmap else "YlGn"` (Python truthiness: `None` and the empty
string both fall back to `"YlGn"`). -/
def cmapOrDefault (cmap : Option String) : String :=
  match cmap with
  | none => "YlGn"
  | some s => if s = "" then "YlGn" else s

/-- Embedding of `MapModel.draw_counties_map` (`src/map.py:166-208`).
Returns the result of the call (the figure and the main axes, or the
error the call raises) together with the post-call world.  Mirrors the
source order: style lookup, figure + main axes creation, `axis("off")`,
subset-axes layout, then either the data-driven branch (choropleth + county
boundaries on each of the seven axes, one colorbar) or the boundary-only
branch. -/
def draw_counties_map (w : World) (gdf : Option Gdf) (col : Option String)
    (cmap : Option String) : Except String (Figure × Axes) × World :=
  let m := w.model
  match lookupStyle m._style_list "default" with
  | none => (Except.error "KeyError: default", w)
  | some style =>
    let figId := w.nextFigId
    let w := { w with nextFigId := w.nextFigId + 1 }
    let ax := mkAxes.axis_off
    let subset_axes := m._set_subset_map_range ax
    match gdf, col with
    | some g, some c =>
      let cm := cmapOrDefault cmap
      match g.getCol c with
      | none => (Except.error "KeyError: column not in dataframe", w)
      | some vs =>
        let subset_axes := subset_axes.map (fun a =>
          (a.plotColumn c cm false none).plotBoundaryOf BoundarySource.county
            0.8 "black" 1 none)
        match seriesMinMax vs with
        | Except.error e => (Except.error e, w)
        | Except.ok mm =>
          let cbar := m._colorbar ax (mm.map (fun p => p.1))
            (mm.map (fun p => p.2)) cm
          let fig : Figure :=
            { width := style.width, height := style.height, dpi := style.dpi,
              figId := figId, axes := subset_axes ++ [colorbarAxes],
              colorbars := [cbar] }
          (Except.ok (fig, subset_axes.headD mkAxes), w)
    | _, _ =>
      let subset_axes := subset_axes.map (fun a =>
        a.plotBoundaryOf BoundarySource.county 0.8 "black" 1 none)
      let fig : Figure :=
        { width := style.width, height := style.height, dpi := style.dpi,
          figId := figId, axes := subset_axes, colorbars := [] }
      (Except.ok (fig, subset_axes.headD mkAxes), w)

/-- Embedding of `MapModel.default_counties_map` (`src/map.py:210-212`):
`return self.draw_counties_map()`, i.e. the parameterized routine with all
arguments left at their `None` defaults. -/
def default_counties_map (w : World) : Except String (Figure × Axes) × World :=
  draw_counties_map w none none none

/-- Embedding of `MapModel.draw_towns_map` (`src/map.py:214-263`).  Same
shape as the counties routine, but the data-driven branch stacks three
layers on each of the seven axes with explicit z-orders — town boundaries
(`linewidth=0.2, alpha=0.5, zorder=1`), the choropleth (`zorder=2`), county
boundaries (`linewidth=0.8, zorder=3`) — and the boundary-only branch draws
thin semi-transparent town outlines plus county outlines. -/
def draw_towns_map (w : World) (gdf : Option Gdf) (col : Option String)
    (cmap : Option String) : Except String (Figure × Axes) × World :=
  let m := w.model
  match lookupStyle m._style_list "default" with
  | none => (Except.error "KeyError: default", w)
  | some style =>
    let figId := w.nextFigId
    let w := { w with nextFigId := w.nextFigId + 1 }
    let ax := mkAxes.axis_off
    let subset_axes := m._set_subset_map_range ax
    match gdf, col with
    | some g, some c =>
      let cm := cmapOrDefault cmap
      match g.getCol c with
      | none => (Except.error "KeyError: column not in dataframe", w)
      | some vs =>
        let subset_axes := subset_axes.map (fun a =>
          (((a.plotBoundaryOf BoundarySource.town 0.2 "black" 0.5
              (some 1)).plotColumn c cm false
              (some 2)).plotBoundaryOf BoundarySource.county 0.8 "black" 1
              (some 3)))
        match seriesMinMax vs with
        | Except.error e => (Except.error e, w)
        | Except.ok mm =>
          let cbar := m._colorbar ax (mm.map (fun p => p.1))
            (mm.map (fun p => p.2)) cm
          let fig : Figure :=
            { width := style.width, height := style.height, dpi := style.dpi,
              figId := figId, axes := subset_axes ++ [colorbarAxes],
              colorbars := [cbar] }
          (Except.ok (fig, subset_axes.headD mkAxes), w)
    | _, _ =>
      let subset_axes := subset_axes.map (fun a =>
        (a.plotBoundaryOf BoundarySource.town 0.2 "black" 0.5
          none).plotBoundaryOf BoundarySource.county 0.8 "black" 1 none)
      let fig : Figure :=
        { width := style.width, height := style.height, dpi := style.dpi,
          figId := figId, axes := subset_axes, colorbars := [] }
      (Except.ok (fig, subset_axes.headD mkAxes), w)

/-- Embedding of `MapModel.default_towns_map` (`src/map.py:265-267`). -/
def default_towns_map (w : World) : Except String (Figure × Axes) × World :=
  draw_towns_map w none none none

/-- The `(vmin, vmax)` ranges of the colorbars attached to a figure. -/
def colorbarRanges (f : Figure) : List (ℚ × ℚ) :=
  f.colorbars.map (fun cb => (cb.vmin, cb.vmax))

/-- The figure a draw call returned, if it did not raise. -/
def figOf (r : Except String (Figure × Axes) × World) : Option Figure :=
  match r.1 with
  | Except.ok p => some p.1
  | Except.error _ => none

/-- What `_inset_zoom_in_map` promises for one inset surface: positioned at
its fixed normalized rectangle, visible range equal to its region's
bounding box, both tick lists suppressed. -/
def insetSpec (a : Axes) (bounds : List ℚ) (e : Extent) : Prop :=
  a.insetBounds = some bounds ∧
  a.xlim = (e.min_x, e.max_x) ∧
  a.ylim = (e.min_y, e.max_y) ∧
  a.xticks = some [] ∧
  a.yticks = some []

/-- Fixture extent (concrete inputs for witnesses). -/
def E0 : Extent := { min_x := 119, max_x := 122, min_y := 21, max_y := 26 }

/-- Fixture extent table. -/
def MR0 : MapRange :=
  { taiwan := E0, penghu := E0, kinmen := E0, kinmen_wuqiu := E0,
    lienchiang := E0, lienchiang_dongyin := E0, lienchiang_juguang := E0 }

/-- Fixture style (`"default": {width:10, height:10, dpi:100}`). -/
def S0 : Style := { width := 10, height := 10, dpi := 100 }

/-- Fixture one-row dataset with column `"pop" = 1000`. -/
def G0 : Gdf := { cols := [("pop", [ColVal.num 1000])] }

/-- Fixture dataset whose `"pop"` column spans 0 to 6. -/
def G6 : Gdf := { cols := [("pop", [ColVal.num 0, ColVal.num 6])] }

/-- Fixture dataset with a non-numeric `"name"` column. -/
def GS : Gdf := { cols := [("name", [ColVal.str "Taipei"])] }

/-- Fixture dataset with a present but empty `"pop"` column (zero rows). -/
def GE : Gdf := { cols := [("pop", [])] }

/-- Fixture renderer. -/
def M0 : MapModel :=
  { crs := "WGS84", county_gdf := { cols := [] }, town_gdf := { cols := [] },
    font := "font/Urbanist-VariableFont_wght.ttf", _map_range := MR0,
    _style_list := [("default", S0)] }

/-- Fixture world. -/
def W0 : World := { model := M0, nextFigId := 0 }

/-!
Model of the tick locator the source installs on the colorbar
(`MaxNLocator(nbins=6)`, `src/map.py:163`).

`src/map.py` delegates tick placement to matplotlib's `MaxNLocator` with
`nbins=6` (at most six intervals) and otherwise default parameters
(`steps=[1, 2, 2.5, 5, 10]`, `min_n_ticks=2`, no pruning/symmetry).  The
definitions below transcribe that algorithm — `mtransforms.nonsingular`,
`ticker.scale_range` and `MaxNLocator._raw_ticks` / `tick_values` — in
exact rational arithmetic.  The floating-point fuzz terms of the original
(`_Edge_integer`'s `1e-10` tolerances, which only compensate binary
rounding error) are modelled as exact floor/ceil.
-/

/-- Floor of the base-10 logarithm of a natural number, fuelled so the
recursion is structural; exact whenever `n ≤ fuel`. -/
def log10fuel : Nat → Nat → Nat
  | 0, _ => 0
  | fuel + 1, n => if n < 10 then 0 else log10fuel fuel (n / 10) + 1

/-- Ceiling of the base-10 logarithm of a natural number, fuelled so the
recursion is structural; exact whenever `n ≤ fuel`. -/
def clog10fuel : Nat → Nat → Nat
  | 0, _ => 0
  | fuel + 1, n => if n ≤ 1 then 0 else clog10fuel fuel ((n + 9) / 10) + 1

/-- `⌊log₁₀ q⌋` for a positive rational (Python's `math.log10(q) // 1`). -/
def intLog10 (q : ℚ) : ℤ :=
  if 1 ≤ q then (log10fuel ⌊q⌋.toNat ⌊q⌋.toNat : ℤ)
  else -(clog10fuel ⌈q⁻¹⌉.toNat ⌈q⁻¹⌉.toNat : ℤ)

/-- `matplotlib.ticker.scale_range(vmin, vmax, n)` (threshold 100): the
decade `scale` of one raw interval and the decade `offset` of the interval
midpoint when the interval sits far from zero.  (The `maxabsv == 0` guard
is unreachable after `nonsingular`, which guarantees a nondegenerate
interval.) -/
def scale_range (vmin vmax : ℚ) (n : ℕ) : ℚ × ℚ :=
  let dv := |vmax - vmin|
  let maxabsv := max |vmax| |vmin|
  if maxabsv = 0 then (1, 0)
  else
    let meanv := (vmax + vmin) / 2
    let offset : ℚ :=
      if |meanv| / dv < 100 then 0
      else (if 0 ≤ meanv then 1 else -1) * (10 : ℚ) ^ intLog10 |meanv|
    ((10 : ℚ) ^ intLog10 (dv / n), offset)

/-- `MaxNLocator`'s extended staircase of candidate steps for the default
`steps=[1, 2, 2.5, 5, 10]`: `hstack([steps[:-1] / 10, steps,
steps[-1] * 10])`. -/
def extendedSteps : List ℚ := [1/10, 1/5, 1/4, 1/2, 1, 2, 5/2, 5, 10, 100]

/-- The tick array one candidate step produces inside
`MaxNLocator._raw_ticks`: `best_vmin = (vmin // step) * step`, edge indices
`low = ⌊(vmin - best_vmin) / step⌋` and `high = ⌈(vmax - best_vmin) /
step⌉`, ticks `arange(low, high + 1) * step + best_vmin`. -/
def ticksForStep (vlo vhi s : ℚ) : List ℚ :=
  let best_vmin := (⌊vlo / s⌋ : ℚ) * s
  let low : ℤ := ⌊(vlo - best_vmin) / s⌋
  let high : ℤ := ⌈(vhi - best_vmin) / s⌉
  (List.range (high + 1 - low).toNat).map
    (fun k : ℕ => ((low + (k : ℤ)) : ℚ) * s + best_vmin)

/-- Membership of a tick in a closed interval (the display clip). -/
def inRange (lo hi t : ℚ) : Bool := decide (lo ≤ t) && decide (t ≤ hi)

/-- How many entries of `l` lie in `[lo, hi]` (numpy's
`((ticks <= _vmax) & (ticks >= _vmin)).sum()`). -/
def countIn (l : List ℚ) (lo hi : ℚ) : ℕ := (l.filter (inRange lo hi)).length

/-- The reversed prefix of the step list up to and including the first step
`≥ r`: the sequence `reversed(range(istep + 1))` of `_raw_ticks` walks the
candidate steps downward from `istep = nonzero(steps >= raw_step)[0][0]`. -/
def firstGE (r : ℚ) : List ℚ → List ℚ → List ℚ
  | acc, [] => acc
  | acc, s :: rest => if r ≤ s then s :: acc else firstGE r (s :: acc) rest

/-- The downward step search of `_raw_ticks`: take the first candidate step
whose tick array shows at least `min_n_ticks = 2` ticks inside the
interval; if none does, the last (smallest) candidate's array is kept. -/
def stepSearch (vlo vhi : ℚ) : List ℚ → List ℚ
  | [] => []
  | [s] => ticksForStep vlo vhi s
  | s :: s' :: rest =>
    if 2 ≤ countIn (ticksForStep vlo vhi s) vlo vhi then ticksForStep vlo vhi s
    else stepSearch vlo vhi (s' :: rest)

/-- `MaxNLocator._raw_ticks(vmin, vmax)` with `nbins` intervals: scale the
staircase, pick the first adequate step at or above
`raw_step = (vmax - vmin) / nbins`, and shift the resulting ticks back by
the offset. -/
def _raw_ticks (nbins : ℕ) (vmin vmax : ℚ) : List ℚ :=
  let p := scale_range vmin vmax nbins
  let scale := p.1
  let offset := p.2
  let vlo := vmin - offset
  let vhi := vmax - offset
  let steps := extendedSteps.map (fun e => e * scale)
  let raw_step := (vhi - vlo) / (nbins : ℚ)
  (stepSearch vlo vhi (firstGE raw_step [] steps)).map (fun t => t + offset)

/-- `MaxNLocator(nbins).tick_values(vmin, vmax)` with the source's default
parameters: regularise the interval with `nonsingular`, then `_raw_ticks`
(no symmetrising, no pruning). -/
def tick_values (nbins : ℕ) (vmin vmax : ℚ) : List ℚ :=
  let p := nonsingular (1 / 10 ^ (13 : ℕ)) (1 / 10 ^ (14 : ℕ)) vmin vmax
  _raw_ticks nbins p.1 p.2

/-- The ticks actually displayed on a colorbar: the locator's values
clipped to the colorbar's view interval `[vmin, vmax]`. -/
def Colorbar.displayedTicks (cb : Colorbar) : List ℚ :=
  (tick_values cb.locatorNBins cb.vmin cb.vmax).filter (inRange cb.vmin cb.vmax)

/-- The rendered labels of the displayed ticks: the installed formatter
applied to each displayed tick value. -/
def Colorbar.tickLabels (cb : Colorbar) : List String :=
  cb.displayedTicks.map cb.formatter

/-- C1: for every extent table with the seven fixed region keys, the layout
builder returns an ordered list of exactly seven surfaces — the main axes
first (clipped to the `taiwan` box), then the six insets at their fixed
normalized rectangles, each clipped to its region's bounding box and with
both tick lists suppressed. -/
theorem C1_subset_layout (m : MapModel) (ax : Axes) :
    ∃ main pen kin kinw lie lied liej,
      m._set_subset_map_range ax = [main, pen, kin, kinw, lie, lied, liej] ∧
      main.xlim = (m._map_range.taiwan.min_x, m._map_range.taiwan.max_x) ∧
      main.ylim = (m._map_range.taiwan.min_y, m._map_range.taiwan.max_y) ∧
      insetSpec pen [0.02, 0.25, 0.25, 0.40] m._map_range.penghu ∧
      insetSpec kin [0.02, 0.58, 0.25, 0.25] m._map_range.kinmen ∧
      insetSpec kinw [0.22, 0.69, 0.06, 0.06] m._map_range.kinmen_wuqiu ∧
      insetSpec lie [0.02, 0.734, 0.25, 0.25] m._map_range.lienchiang ∧
      insetSpec lied [0.22, 0.87, 0.06, 0.06] m._map_range.lienchiang_dongyin ∧
      insetSpec liej [0.22, 0.80, 0.06, 0.06] m._map_range.lienchiang_juguang := by
  exact ⟨_, _, _, _, _, _, _, rfl, rfl, rfl,
    ⟨rfl, rfl, rfl, rfl, rfl⟩, ⟨rfl, rfl, rfl, rfl, rfl⟩,
    ⟨rfl, rfl, rfl, rfl, rfl⟩, ⟨rfl, rfl, rfl, rfl, rfl⟩,
    ⟨rfl, rfl, rfl, rfl, rfl⟩, ⟨rfl, rfl, rfl, rfl, rfl⟩⟩

/-- C7: the zero-argument entry points are definitionally the parameterized
routines invoked with no dataset, no column and no colormap. -/
theorem C7_default_entry_points (w : World) :
    default_counties_map w = draw_counties_map w none none none ∧
    default_towns_map w = draw_towns_map w none none none :=
  ⟨rfl, rfl⟩

/-- C9: no draw call mutates the renderer's loaded reference state (the
post-call world holds the same `MapModel`, hence the same `county_gdf`,
`town_gdf`, font, extent table and style table), and every figure a call
returns is fresh (it carries the world's next allocation id). -/
theorem C9_no_mutation (w : World) (gdf : Option Gdf) (col : Option String)
    (cmap : Option String) :
    (draw_counties_map w gdf col cmap).2.model = w.model ∧
    (draw_towns_map w gdf col cmap).2.model = w.model ∧
    (default_counties_map w).2.model = w.model ∧
    (default_towns_map w).2.model = w.model ∧
    (∀ fig a, (draw_counties_map w gdf col cmap).1 = Except.ok (fig, a) →
      fig.figId = w.nextFigId) ∧
    (∀ fig a, (draw_towns_map w gdf col cmap).1 = Except.ok (fig, a) →
      fig.figId = w.nextFigId) := by
  refine ⟨?_, ?_, ?_, ?_, ?_, ?_⟩
  · simp only [draw_counties_map]
    repeat' split
    all_goals rfl
  · simp only [draw_towns_map]
    repeat' split
    all_goals rfl
  · simp only [default_counties_map, draw_counties_map]
    repeat' split
    all_goals rfl
  · simp only [default_towns_map, draw_towns_map]
    repeat' split
    all_goals rfl
  · intro fig a h
    simp only [draw_counties_map] at h
    repeat' split at h
    all_goals simp_all
    all_goals (obtain ⟨h1, h2⟩ := h; subst h1; rfl)
  · intro fig a h
    simp only [draw_towns_map] at h
    repeat' split at h
    all_goals simp_all
    all_goals (obtain ⟨h1, h2⟩ := h; subst h1; rfl)

/-- C9 witness: at a concrete world, the default counties call leaves the
renderer state unchanged. -/
theorem C9_no_mutation_witness :
    (draw_counties_map W0 none none none).2.model = W0.model :=
  (C9_no_mutation W0 none none none).1

/-- The layout builder returns exactly seven surfaces. -/
theorem subset_length (m : MapModel) (ax : Axes) :
    (m._set_subset_map_range ax).length = 7 := rfl

/-- Every surface produced by the layout builder (over the blank main axes
every draw call passes it) carries no plot layers yet. -/
theorem subset_axes_layers_nil (m : MapModel) (a' : Axes)
    (h : a' ∈ m._set_subset_map_range mkAxes.axis_off) : a'.layers = [] := by
  simp only [MapModel._set_subset_map_range, MapModel._inset_zoom_in_map,
    Axes.set_xlim, Axes.set_ylim, Axes.set_xticks, Axes.set_yticks,
    Axes.inset_axes, Axes.axis_off, List.mem_cons, List.not_mem_nil,
    or_false] at h
  rcases h with rfl | rfl | rfl | rfl | rfl | rfl | rfl <;> rfl

/-- On an interval that is nondegenerate at float scale, `nonsingular` is
the identity. -/
theorem nonsingular_eq_self (expander tiny lo hi : ℚ)
    (h1 : ((10 : ℚ) ^ (6 : ℕ) / tiny) * dblTiny ≤ max |lo| |hi|)
    (h2 : max |lo| |hi| * tiny < hi - lo)
    (htiny : 0 < tiny) :
    nonsingular expander tiny lo hi = (lo, hi) := by
  have hmx : 0 ≤ max |lo| |hi| := le_trans (abs_nonneg lo) (le_max_left _ _)
  have hlh : lo < hi := by
    have := mul_nonneg hmx htiny.le
    linarith
  simp only [nonsingular]
  rw [if_neg (not_lt.2 hlh.le)]
  dsimp only
  rw [if_neg (not_lt.2 h1), if_neg (not_le.2 h2)]

/-- C2 counterexample: on the spec's own one-row fixture (`pop = 1000`)
the colorbar's range is not the column's `(min, max)` — `plt.colorbar`
runs `Colorbar._process_values`, which expands the degenerate requested
range with `nonsingular(expander=0.1)`, so the returned figure's colorbar
is ranged `(900, 1100)`, not `(1000, 1000)`. -/
theorem C2_colorbar_range_counterexample :
    seriesMinMax [ColVal.num 1000] = Except.ok (some (1000, 1000)) ∧
    ∃ fig a w', draw_counties_map W0 (some G0) (some "pop") none =
        (Except.ok (fig, a), w') ∧
      colorbarRanges fig ≠ [(1000, 1000)] ∧
      colorbarRanges fig = [(900, 1100)] := by
  refine ⟨rfl, _, _, _, rfl, ?_, ?_⟩ <;> decide

/-- C2 (amended): a data-driven call (counties or towns) with a dataset
and a valid non-empty numeric column returns a figure carrying exactly one
colorbar, whose range is the `nonsingular(expander=0.1, tiny=1e-15)`
regularisation `Colorbar._process_values` applies to the column's
`(min, max)`; whenever that interval is nondegenerate at float scale the
regularisation is the identity, so the range is exactly `(min, max)`. -/
theorem C2_colorbar_range (w : World) (g : Gdf) (c : String)
    (cmap : Option String) (vs : List ColVal) (lo hi : ℚ) (st : Style)
    (hst : lookupStyle w.model._style_list "default" = some st)
    (hcol : g.getCol c = some vs)
    (hmm : seriesMinMax vs = Except.ok (some (lo, hi))) :
    (∃ fig a w', draw_counties_map w (some g) (some c) cmap =
        (Except.ok (fig, a), w') ∧
      colorbarRanges fig = [nonsingular (1 / 10) (1 / 10 ^ (15 : ℕ)) lo hi]) ∧
    (∃ fig a w', draw_towns_map w (some g) (some c) cmap =
        (Except.ok (fig, a), w') ∧
      colorbarRanges fig = [nonsingular (1 / 10) (1 / 10 ^ (15 : ℕ)) lo hi]) ∧
    (((10 : ℚ) ^ (6 : ℕ) / (1 / 10 ^ (15 : ℕ))) * dblTiny ≤ max |lo| |hi| →
      max |lo| |hi| * (1 / 10 ^ (15 : ℕ)) < hi - lo →
      nonsingular (1 / 10) (1 / 10 ^ (15 : ℕ)) lo hi = (lo, hi)) := by
  refine ⟨?_, ?_, ?_⟩
  · simp only [draw_counties_map, hst, hcol, hmm]
    exact ⟨_, _, _, rfl, rfl⟩
  · simp only [draw_towns_map, hst, hcol, hmm]
    exact ⟨_, _, _, rfl, rfl⟩
  · intro h1 h2
    exact nonsingular_eq_self (1 / 10) (1 / 10 ^ (15 : ℕ)) lo hi h1 h2
      (by positivity)

/-- C2 witness: on the fixture whose `"pop"` column spans 0 to 6 (a
nondegenerate range) the counties colorbar is ranged exactly `(0, 6)`. -/
theorem C2_colorbar_range_witness :
    seriesMinMax [ColVal.num 0, ColVal.num 6] = Except.ok (some (0, 6)) ∧
    (∃ fig a w', draw_counties_map W0 (some G6) (some "pop") none =
        (Except.ok (fig, a), w') ∧
      colorbarRanges fig = [((0 : ℚ), (6 : ℚ))]) := by
  refine ⟨rfl, ?_⟩
  obtain ⟨⟨fig, a, w', heq, hr⟩, _, hnd⟩ :=
    C2_colorbar_range W0 G6 "pop" none [ColVal.num 0, ColVal.num 6] 0 6 S0
      rfl rfl rfl
  refine ⟨fig, a, w', heq, ?_⟩
  rw [hr, hnd (by norm_num [dblTiny]) (by norm_num)]

/-- C3: when a dataset or column is omitted, neither draw entry point
raises (given a valid `"default"` style entry); the figure carries no
colorbar; every axes carries boundary outlines only (county outlines for
the counties variant, thin semi-transparent town outlines plus county
outlines for the towns variant); and the `cmap` argument has no effect. -/
theorem C3_boundary_only (w : World) (gdf : Option Gdf) (col : Option String)
    (cmap cm' : Option String) (st : Style)
    (hst : lookupStyle w.model._style_list "default" = some st)
    (hnot : ¬(gdf.isSome = true ∧ col.isSome = true)) :
    (∃ fig a w', draw_counties_map w gdf col cmap = (Except.ok (fig, a), w') ∧
      fig.colorbars = [] ∧
      ∀ a' ∈ fig.axes, a'.layers =
        [Layer.boundary BoundarySource.county 0.8 "black" 1 none]) ∧
    (∃ fig a w', draw_towns_map w gdf col cmap = (Except.ok (fig, a), w') ∧
      fig.colorbars = [] ∧
      ∀ a' ∈ fig.axes, a'.layers =
        [Layer.boundary BoundarySource.town 0.2 "black" 0.5 none,
         Layer.boundary BoundarySource.county 0.8 "black" 1 none]) ∧
    draw_counties_map w gdf col cmap = draw_counties_map w gdf col cm' ∧
    draw_towns_map w gdf col cmap = draw_towns_map w gdf col cm' := by
  rcases gdf with _ | g
  · refine ⟨?_, ?_, ?_, ?_⟩
    · simp only [draw_counties_map, hst]
      refine ⟨_, _, _, rfl, rfl, ?_⟩
      intro a' ha'
      obtain ⟨b, hb, rfl⟩ := List.mem_map.1 ha'
      simp [Axes.plotBoundaryOf, Axes.addLayer, subset_axes_layers_nil _ _ hb]
    · simp only [draw_towns_map, hst]
      refine ⟨_, _, _, rfl, rfl, ?_⟩
      intro a' ha'
      obtain ⟨b, hb, rfl⟩ := List.mem_map.1 ha'
      simp [Axes.plotBoundaryOf, Axes.addLayer, subset_axes_layers_nil _ _ hb]
    · rfl
    · rfl
  · rcases col with _ | c
    · refine ⟨?_, ?_, ?_, ?_⟩
      · simp only [draw_counties_map, hst]
        refine ⟨_, _, _, rfl, rfl, ?_⟩
        intro a' ha'
        obtain ⟨b, hb, rfl⟩ := List.mem_map.1 ha'
        simp [Axes.plotBoundaryOf, Axes.addLayer, subset_axes_layers_nil _ _ hb]
      · simp only [draw_towns_map, hst]
        refine ⟨_, _, _, rfl, rfl, ?_⟩
        intro a' ha'
        obtain ⟨b, hb, rfl⟩ := List.mem_map.1 ha'
        simp [Axes.plotBoundaryOf, Axes.addLayer, subset_axes_layers_nil _ _ hb]
      · rfl
      · rfl
    · exact absurd ⟨rfl, rfl⟩ hnot

/-- C3 witness: the default counties call on the fixture world succeeds
with no colorbar and county-outline-only layers everywhere. -/
theorem C3_boundary_only_witness :
    (¬((none : Option Gdf).isSome = true ∧
        (none : Option String).isSome = true)) ∧
    (∃ fig a w', draw_counties_map W0 none none none =
        (Except.ok (fig, a), w') ∧
      fig.colorbars = [] ∧
      ∀ a' ∈ fig.axes, a'.layers =
        [Layer.boundary BoundarySource.county 0.8 "black" 1 none]) :=
  ⟨by decide,
    (C3_boundary_only W0 none none (some "viridis") none S0 rfl (by decide)).1⟩

/-- C4: in every data-driven towns call, each of the seven map surfaces
carries exactly three layers with strictly increasing z-order — town
boundaries (below), the choropleth fill (middle), county boundaries
(above). -/
theorem C4_towns_zorder (w : World) (g : Gdf) (c : String)
    (cmap : Option String) (vs : List ColVal) (lo hi : ℚ) (st : Style)
    (hst : lookupStyle w.model._style_list "default" = some st)
    (hcol : g.getCol c = some vs)
    (hmm : seriesMinMax vs = Except.ok (some (lo, hi))) :
    ∃ fig a w', draw_towns_map w (some g) (some c) cmap =
        (Except.ok (fig, a), w') ∧
      ∀ a' ∈ fig.axes.take 7, ∃ zt zf zc : Nat,
        a'.layers =
          [Layer.boundary BoundarySource.town 0.2 "black" 0.5 (some zt),
           Layer.choropleth c (cmapOrDefault cmap) false (some zf),
           Layer.boundary BoundarySource.county 0.8 "black" 1 (some zc)] ∧
        zt < zf ∧ zf < zc := by
  simp only [draw_towns_map, hst, hcol, hmm]
  refine ⟨_, _, _, rfl, ?_⟩
  intro a' ha'
  rw [List.take_left'] at ha'
  · obtain ⟨b, hb, rfl⟩ := List.mem_map.1 ha'
    refine ⟨1, 2, 3, ?_, by norm_num, by norm_num⟩
    simp [Axes.plotBoundaryOf, Axes.plotColumn, Axes.addLayer,
      subset_axes_layers_nil _ _ hb]
  · simp [subset_length]

/-- C4 witness: at the one-row fixture, the towns call succeeds and every
map surface has the three-layer town/fill/county stack. -/
theorem C4_towns_zorder_witness :
    seriesMinMax [ColVal.num 1000] = Except.ok (some (1000, 1000)) ∧
    (∃ fig a w', draw_towns_map W0 (some G0) (some "pop") none =
        (Except.ok (fig, a), w') ∧
      ∀ a' ∈ fig.axes.take 7, ∃ zt zf zc : Nat,
        a'.layers =
          [Layer.boundary BoundarySource.town 0.2 "black" 0.5 (some zt),
           Layer.choropleth "pop" (cmapOrDefault none) false (some zf),
           Layer.boundary BoundarySource.county 0.8 "black" 1 (some zc)] ∧
        zt < zf ∧ zf < zc) :=
  ⟨rfl, C4_towns_zorder W0 G0 "pop" none [ColVal.num 1000] 1000 1000 S0
    rfl rfl rfl⟩

/-- C6: omitting the colormap on a data-driven call makes both the
choropleth layers and the colorbar use `"YlGn"`, on both entry points. -/
theorem C6_cmap_defaults_to_YlGn (w : World) (g : Gdf) (c : String)
    (vs : List ColVal) (lo hi : ℚ) (st : Style)
    (hst : lookupStyle w.model._style_list "default" = some st)
    (hcol : g.getCol c = some vs)
    (hmm : seriesMinMax vs = Except.ok (some (lo, hi))) :
    (∃ fig a w', draw_counties_map w (some g) (some c) none =
        (Except.ok (fig, a), w') ∧
      (∀ cb ∈ fig.colorbars, cb.cmap = "YlGn") ∧
      (∀ a' ∈ fig.axes, ∀ col' cm lg z,
        Layer.choropleth col' cm lg z ∈ a'.layers → cm = "YlGn")) ∧
    (∃ fig a w', draw_towns_map w (some g) (some c) none =
        (Except.ok (fig, a), w') ∧
      (∀ cb ∈ fig.colorbars, cb.cmap = "YlGn") ∧
      (∀ a' ∈ fig.axes, ∀ col' cm lg z,
        Layer.choropleth col' cm lg z ∈ a'.layers → cm = "YlGn")) := by
  constructor
  · simp only [draw_counties_map, hst, hcol, hmm]
    refine ⟨_, _, _, rfl, ?_, ?_⟩
    · intro cb hcb
      simp only [List.mem_singleton] at hcb
      subst hcb
      rfl
    · intro a' ha' col' cm lg z hmem
      rcases List.mem_append.1 ha' with h | h
      · obtain ⟨b, hb, rfl⟩ := List.mem_map.1 h
        simp [Axes.plotBoundaryOf, Axes.plotColumn, Axes.addLayer,
          subset_axes_layers_nil _ _ hb, cmapOrDefault] at hmem
        exact hmem.2.1
      · simp only [List.mem_singleton] at h
        subst h
        simp [colorbarAxes, mkAxes] at hmem
  · simp only [draw_towns_map, hst, hcol, hmm]
    refine ⟨_, _, _, rfl, ?_, ?_⟩
    · intro cb hcb
      simp only [List.mem_singleton] at hcb
      subst hcb
      rfl
    · intro a' ha' col' cm lg z hmem
      rcases List.mem_append.1 ha' with h | h
      · obtain ⟨b, hb, rfl⟩ := List.mem_map.1 h
        simp [Axes.plotBoundaryOf, Axes.plotColumn, Axes.addLayer,
          subset_axes_layers_nil _ _ hb, cmapOrDefault] at hmem
        exact hmem.2.1
      · simp only [List.mem_singleton] at h
        subst h
        simp [colorbarAxes, mkAxes] at hmem

/-- C6 witness: at the one-row fixture the counties call's colorbar uses
`"YlGn"`. -/
theorem C6_cmap_defaults_to_YlGn_witness :
    G0.getCol "pop" = some [ColVal.num 1000] ∧
    (∃ fig a w', draw_counties_map W0 (some G0) (some "pop") none =
        (Except.ok (fig, a), w') ∧
      (∀ cb ∈ fig.colorbars, cb.cmap = "YlGn") ∧
      (∀ a' ∈ fig.axes, ∀ col' cm lg z,
        Layer.choropleth col' cm lg z ∈ a'.layers → cm = "YlGn")) :=
  ⟨rfl, (C6_cmap_defaults_to_YlGn W0 G0 "pop" [ColVal.num 1000] 1000 1000 S0
    rfl rfl rfl).1⟩

/-- C8 counterexample: a present but *empty* column does not make the call
raise — pandas reduces it to `NaN` limits and matplotlib's `nonsingular`
regularises them to `(-0.1, 0.1)` — so the call completes and silently
renders a figure with a colorbar, contradicting the claim's
"cannot be reduced to a numeric min/max implies an error" over that case. -/
theorem C8_empty_column_counterexample :
    GE.getCol "pop" = some [] ∧
    seriesMinMax [] = Except.ok none ∧
    ∃ fig a w', draw_counties_map W0 (some GE) (some "pop") none =
        (Except.ok (fig, a), w') ∧
      colorbarRanges fig = [(-(1 / 10 : ℚ), (1 / 10 : ℚ))] := by
  refine ⟨rfl, rfl, _, _, _, rfl, ?_⟩
  decide

/-- C8 (amended): a data-driven call whose column is absent from the
dataset, or whose column contains a non-numeric value (so the numeric
reduction or the colorbar's finiteness check fails), raises an error on
both entry points rather than returning a figure.  (A present but empty
column instead renders silently with the colorbar regularised to
`(-0.1, 0.1)`.) -/
theorem C8_bad_column_raises (w : World) (g : Gdf) (c : String)
    (cmap : Option String)
    (hbad : g.getCol c = none ∨
      ∃ vs e, g.getCol c = some vs ∧ seriesMinMax vs = Except.error e) :
    (∃ e, (draw_counties_map w (some g) (some c) cmap).1 = Except.error e) ∧
    (∃ e, (draw_towns_map w (some g) (some c) cmap).1 = Except.error e) := by
  constructor
  · rcases hs : lookupStyle w.model._style_list "default" with _ | st
    · simp only [draw_counties_map, hs]
      exact ⟨_, rfl⟩
    · rcases hbad with hnone | ⟨vs, e, hvs, hm⟩
      · simp only [draw_counties_map, hs, hnone]
        exact ⟨_, rfl⟩
      · simp only [draw_counties_map, hs, hvs, hm]
        exact ⟨_, rfl⟩
  · rcases hs : lookupStyle w.model._style_list "default" with _ | st
    · simp only [draw_towns_map, hs]
      exact ⟨_, rfl⟩
    · rcases hbad with hnone | ⟨vs, e, hvs, hm⟩
      · simp only [draw_towns_map, hs, hnone]
        exact ⟨_, rfl⟩
      · simp only [draw_towns_map, hs, hvs, hm]
        exact ⟨_, rfl⟩

/-- C8 witness: asking for a column the fixture dataset does not have
makes both entry points raise; so does a non-numeric column. -/
theorem C8_bad_column_raises_witness :
    G0.getCol "missing" = none ∧
    seriesMinMax [ColVal.str "Taipei"] = Except.error
      "TypeError: column has no numeric range" ∧
    ((∃ e, (draw_counties_map W0 (some G0) (some "missing") none).1 =
        Except.error e) ∧
     (∃ e, (draw_towns_map W0 (some G0) (some "missing") none).1 =
        Except.error e)) ∧
    ((∃ e, (draw_counties_map W0 (some GS) (some "name") none).1 =
        Except.error e) ∧
     (∃ e, (draw_towns_map W0 (some GS) (some "name") none).1 =
        Except.error e)) :=
  ⟨rfl, rfl, C8_bad_column_raises W0 G0 "missing" none (Or.inl rfl),
    C8_bad_column_raises W0 GS "name" none
      (Or.inr ⟨[ColVal.str "Taipei"], _, rfl, rfl⟩)⟩

/-- C10 counterexample: a data-driven call does not produce a seven-axes
figure — `plt.colorbar` adds an eighth axes to the figure, so the claim
"the resulting figure contains exactly seven axes" fails on the concrete
one-row dataset. -/
theorem C10_counterexample :
    ∃ fig a w', draw_counties_map W0 (some G0) (some "pop") none =
        (Except.ok (fig, a), w') ∧ fig.axes.length ≠ 7 := by
  refine ⟨_, _, _, rfl, ?_⟩
  decide

/-- C10 (amended): every successful call creates a figure whose width,
height and dpi equal the style table's `"default"` entry; boundary-only
calls yield exactly seven axes while data-driven calls yield eight (the
seven map surfaces plus the colorbar's own axes); and no style entry other
than `"default"` is consulted (replacing the rest of the style table does
not change the result). -/
theorem C10_figure_style (w : World) (gdf : Option Gdf) (col : Option String)
    (cmap : Option String) (st : Style)
    (hst : lookupStyle w.model._style_list "default" = some st) :
    (∀ fig, figOf (draw_counties_map w gdf col cmap) = some fig →
      fig.width = st.width ∧ fig.height = st.height ∧ fig.dpi = st.dpi ∧
      fig.axes.length =
        (match gdf, col with | some _, some _ => 8 | _, _ => 7)) ∧
    (∀ fig, figOf (draw_towns_map w gdf col cmap) = some fig →
      fig.width = st.width ∧ fig.height = st.height ∧ fig.dpi = st.dpi ∧
      fig.axes.length =
        (match gdf, col with | some _, some _ => 8 | _, _ => 7)) ∧
    (∀ sl', lookupStyle sl' "default" = some st →
      (draw_counties_map
          { model := { w.model with _style_list := sl' },
            nextFigId := w.nextFigId } gdf col cmap).1 =
        (draw_counties_map w gdf col cmap).1 ∧
      (draw_towns_map
          { model := { w.model with _style_list := sl' },
            nextFigId := w.nextFigId } gdf col cmap).1 =
        (draw_towns_map w gdf col cmap).1) := by
  refine ⟨?_, ?_, ?_⟩
  · intro fig h
    rcases gdf with _ | g <;> rcases col with _ | c <;>
      simp only [draw_counties_map, hst] at h
    all_goals (
      repeat' split at h
      all_goals (
        simp only [figOf, Option.some.injEq, reduceCtorEq] at h
        try (subst h
             refine ⟨rfl, rfl, rfl, ?_⟩
             simp [subset_length])))
  · intro fig h
    rcases gdf with _ | g <;> rcases col with _ | c <;>
      simp only [draw_towns_map, hst] at h
    all_goals (
      repeat' split at h
      all_goals (
        simp only [figOf, Option.some.injEq, reduceCtorEq] at h
        try (subst h
             refine ⟨rfl, rfl, rfl, ?_⟩
             simp [subset_length])))
  · intro sl' hsl'
    constructor
    · simp only [draw_counties_map, hst, hsl']
      repeat' split
      all_goals rfl
    · simp only [draw_towns_map, hst, hsl']
      repeat' split
      all_goals rfl

/-- C10 witness: the fixture default call yields a 10 x 10, dpi-100 figure
with exactly seven axes. -/
theorem C10_figure_style_witness :
    lookupStyle W0.model._style_list "default" = some S0 ∧
    ((figOf (draw_counties_map W0 none none none)).map
        (fun fig => (fig.width, fig.height, fig.dpi, fig.axes.length)) =
      some (10, 10, 100, 7)) := by
  refine ⟨rfl, ?_⟩
  obtain ⟨hc, _⟩ := C10_figure_style W0 none none none S0 rfl
  obtain ⟨fig, hfig⟩ :
      ∃ fig, figOf (draw_counties_map W0 none none none) = some fig := ⟨_, rfl⟩
  obtain ⟨h1, h2, h3, h4⟩ := hc fig hfig
  rw [hfig, Option.map_some', h1, h2, h3, h4]
  rfl

/-- `log10fuel` is exact on sufficient fuel: it brackets `n` between
consecutive powers of ten. -/
theorem log10fuel_spec : ∀ fuel n, 1 ≤ n → n ≤ fuel →
    10 ^ log10fuel fuel n ≤ n ∧ n < 10 ^ (log10fuel fuel n + 1) := by
  intro fuel
  induction fuel with
  | zero => intro n h1 h2; omega
  | succ f ih =>
    intro n h1 h2
    simp only [log10fuel]
    by_cases hn : n < 10
    · rw [if_pos hn]
      constructor
      · simpa using h1
      · simpa using hn
    · rw [if_neg hn]
      push_neg at hn
      have hd1 : 1 ≤ n / 10 := (Nat.one_le_div_iff (by norm_num)).2 hn
      have hd2 : n / 10 ≤ f := by
        have : n / 10 < n := Nat.div_lt_self (by omega) (by norm_num)
        omega
      obtain ⟨ha, hb⟩ := ih (n / 10) hd1 hd2
      set k := log10fuel f (n / 10) with hk
      have hx : (10 : ℕ) ^ (k + 1) = 10 * 10 ^ k := by ring
      have hy : (10 : ℕ) ^ (k + 1 + 1) = 10 * 10 ^ (k + 1) := by ring
      omega

/-- `clog10fuel` is exact on sufficient fuel: `n ≤ 10 ^ clog10fuel n`, and
when the result is positive the previous power of ten is below `n`. -/
theorem clog10fuel_spec : ∀ fuel n, n ≤ fuel →
    n ≤ 10 ^ clog10fuel fuel n ∧
    (∀ j, clog10fuel fuel n = j + 1 → 10 ^ j < n) := by
  intro fuel
  induction fuel with
  | zero =>
    intro n h
    have hn : n = 0 := by omega
    subst hn
    exact ⟨by norm_num [clog10fuel], fun j hj => by simp [clog10fuel] at hj⟩
  | succ f ih =>
    intro n h
    simp only [clog10fuel]
    by_cases hn : n ≤ 1
    · rw [if_pos hn]
      exact ⟨by omega, fun j hj => by omega⟩
    · rw [if_neg hn]
      push_neg at hn
      have hlt : (n + 9) / 10 < n := by omega
      have hle : (n + 9) / 10 ≤ f := by omega
      obtain ⟨ha, hb⟩ := ih ((n + 9) / 10) hle
      set k := clog10fuel f ((n + 9) / 10) with hk
      constructor
      · have hx : (10 : ℕ) ^ (k + 1) = 10 * 10 ^ k := by ring
        omega
      · intro j hj
        have hjk : j = k := by omega
        subst hjk
        rcases k with _ | k'
        · simpa using hn
        · have hbk := hb k' rfl
          have hx : (10 : ℕ) ^ (k' + 1) = 10 * 10 ^ k' := by ring
          omega

/-- `clog10fuel` is positive on inputs at least 2 (given fuel). -/
theorem clog10fuel_pos (f n : ℕ) (h2 : 2 ≤ n) (hf : 1 ≤ f) :
    1 ≤ clog10fuel f n := by
  rcases f with _ | f'
  · omega
  · simp only [clog10fuel]
    rw [if_neg (by omega)]
    omega

/-- `intLog10` computes the floor base-10 logarithm of a positive
rational: `10 ^ intLog10 q ≤ q < 10 ^ (intLog10 q + 1)`. -/
theorem intLog10_spec (q : ℚ) (hq : 0 < q) :
    (10 : ℚ) ^ intLog10 q ≤ q ∧ q < (10 : ℚ) ^ (intLog10 q + 1) := by
  unfold intLog10
  by_cases h1 : 1 ≤ q
  · rw [if_pos h1]
    have hfl : 1 ≤ ⌊q⌋ := Int.le_floor.2 (by exact_mod_cast h1)
    set m := ⌊q⌋.toNat with hm
    have hm1 : 1 ≤ m := by omega
    have hmq : (m : ℚ) = (⌊q⌋ : ℚ) := by
      have h' : (⌊q⌋.toNat : ℤ) = ⌊q⌋ := Int.toNat_of_nonneg (by omega)
      rw [hm]
      exact_mod_cast h'
    obtain ⟨ha, hb⟩ := log10fuel_spec m m hm1 le_rfl
    set L := log10fuel m m with hL
    constructor
    · have hcast : ((10 : ℚ)) ^ ((L : ℕ) : ℤ) = ((10 ^ L : ℕ) : ℚ) := by
        rw [zpow_natCast]
        push_cast
        ring
      rw [hcast]
      calc ((10 ^ L : ℕ) : ℚ) ≤ (m : ℚ) := by exact_mod_cast ha
        _ = (⌊q⌋ : ℚ) := hmq
        _ ≤ q := Int.floor_le q
    · have hcast : ((10 : ℚ)) ^ (((L : ℕ) : ℤ) + 1) = ((10 ^ (L + 1) : ℕ) : ℚ) := by
        rw [show ((L : ℕ) : ℤ) + 1 = (((L + 1 : ℕ)) : ℤ) by push_cast; ring,
          zpow_natCast]
        push_cast
        ring
      rw [hcast]
      calc q < (⌊q⌋ : ℚ) + 1 := Int.lt_floor_add_one q
        _ = (m : ℚ) + 1 := by rw [hmq]
        _ ≤ ((10 ^ (L + 1) : ℕ) : ℚ) := by exact_mod_cast hb
  · rw [if_neg h1]
    push_neg at h1
    have hqi : 1 < q⁻¹ := one_lt_inv_iff.2 ⟨hq, h1⟩
    have hcl : 2 ≤ ⌈q⁻¹⌉ := by
      have : (1 : ℤ) < ⌈q⁻¹⌉ := Int.lt_ceil.2 (by exact_mod_cast hqi)
      omega
    set n := ⌈q⁻¹⌉.toNat with hn
    have hn2 : 2 ≤ n := by omega
    have hnq : (n : ℚ) = (⌈q⁻¹⌉ : ℚ) := by
      have h' : (⌈q⁻¹⌉.toNat : ℤ) = ⌈q⁻¹⌉ := Int.toNat_of_nonneg (by omega)
      rw [hn]
      exact_mod_cast h'
    obtain ⟨ha, hb⟩ := clog10fuel_spec n n le_rfl
    set c := clog10fuel n n with hc
    have hc1 : 1 ≤ c := clog10fuel_pos n n hn2 (by omega)
    have hpow_pos : (0 : ℚ) < (10 : ℚ) ^ ((c : ℕ) : ℤ) := by positivity
    have h10c : q⁻¹ ≤ (10 : ℚ) ^ ((c : ℕ) : ℤ) := by
      calc q⁻¹ ≤ (⌈q⁻¹⌉ : ℚ) := Int.le_ceil _
        _ = (n : ℚ) := hnq.symm
        _ ≤ ((10 ^ c : ℕ) : ℚ) := by exact_mod_cast ha
        _ = (10 : ℚ) ^ ((c : ℕ) : ℤ) := by rw [zpow_natCast]; push_cast; ring
    constructor
    · rw [zpow_neg]
      rw [inv_eq_one_div, div_le_iff hpow_pos]
      have : 1 ≤ q * q⁻¹ := by
        rw [mul_inv_cancel₀ hq.ne']
      nlinarith
    · obtain ⟨c', hc'⟩ : ∃ c', c = c' + 1 := ⟨c - 1, by omega⟩
      have hlt : (10 : ℕ) ^ c' < n := hb c' hc'
      have h2 : ((10 : ℚ) ^ ((c' : ℕ) : ℤ)) < q⁻¹ := by
        have hint : ((10 ^ c' : ℕ) : ℚ) ≤ (⌈q⁻¹⌉ : ℚ) - 1 := by
          have h' : ((10 ^ c' : ℕ) : ℚ) + 1 ≤ (n : ℚ) := by
            exact_mod_cast (by omega : (10 : ℕ) ^ c' + 1 ≤ n)
          rw [← hnq]
          linarith
        have hceil : (⌈q⁻¹⌉ : ℚ) - 1 < q⁻¹ := by
          have := Int.ceil_lt_add_one (q⁻¹)
          linarith
        calc (10 : ℚ) ^ ((c' : ℕ) : ℤ) = ((10 ^ c' : ℕ) : ℚ) := by
              rw [zpow_natCast]; push_cast; ring
          _ ≤ (⌈q⁻¹⌉ : ℚ) - 1 := hint
          _ < q⁻¹ := hceil
      have hexp : (-((c : ℕ) : ℤ) + 1) = -((c' : ℕ) : ℤ) := by
        have : (c : ℤ) = (c' : ℤ) + 1 := by exact_mod_cast hc'
        omega
      rw [hexp, zpow_neg]
      have hc'pos : (0 : ℚ) < (10 : ℚ) ^ ((c' : ℕ) : ℤ) := by positivity
      have := inv_lt_inv_of_lt hc'pos h2
      rwa [inv_inv] at this

/-- Shifting a tick list shifts the clip interval. -/
theorem countIn_map_add (l : List ℚ) (o lo hi : ℚ) :
    countIn (l.map (fun t => t + o)) lo hi = countIn l (lo - o) (hi - o) := by
  unfold countIn
  induction l with
  | nil => rfl
  | cons t ts ih =>
    simp only [List.map_cons, List.filter_cons]
    have heq : inRange lo hi (t + o) = inRange (lo - o) (hi - o) t := by
      simp only [inRange]
      congr 1 <;> rw [decide_eq_decide] <;> constructor <;> intro <;> linarith
    rw [heq]
    by_cases hc : inRange (lo - o) (hi - o) t = true
    · rw [if_pos hc, if_pos hc]
      simp only [List.length_cons]
      omega
    · rw [if_neg hc, if_neg hc]
      exact ih

/-- Generic cardinality bound: the naturals below `N` satisfying a
predicate that forces them into `[a, b]` number at most `b + 1 - a`. -/
theorem filter_range_card_le (N : ℕ) (p : ℕ → Bool) (a b : ℤ)
    (h : ∀ k, p k = true → a ≤ (k : ℤ) ∧ (k : ℤ) ≤ b) :
    ((List.range N).filter p).length ≤ (b + 1 - a).toNat := by
  have hnodup : ((List.range N).filter p).Nodup := (List.nodup_range N).filter _
  have hsub : ((List.range N).filter p).toFinset ⊆
      Finset.Icc a.toNat b.toNat := by
    intro k hk
    rw [List.mem_toFinset, List.mem_filter] at hk
    obtain ⟨h1, h2⟩ := h k hk.2
    rw [Finset.mem_Icc]
    omega
  have hcard := Finset.card_le_card hsub
  rw [List.toFinset_card_of_nodup hnodup, Nat.card_Icc] at hcard
  rcases hlen : ((List.range N).filter p).length with _ | n
  · omega
  · have hpos : 0 < ((List.range N).filter p).length := by omega
    obtain ⟨x, hx⟩ := List.exists_mem_of_length_pos hpos
    rw [List.mem_filter] at hx
    obtain ⟨hx1, hx2⟩ := h x hx.2
    omega

/-- The filtered length of a mapped range, as a filtered range length. -/
theorem length_filter_map_range (N : ℕ) (f : ℕ → ℚ) (p : ℚ → Bool) :
    (((List.range N).map f).filter p).length =
    ((List.range N).filter (fun k => p (f k))).length := by
  induction N with
  | zero => rfl
  | succ n ih =>
    rw [List.range_succ]
    simp only [List.map_append, List.filter_append, List.length_append, ih,
      List.map_cons, List.map_nil]
    cases hpc : p (f n) <;> simp [List.filter_singleton, hpc]

/-- Upper bound on displayed ticks: a tick array of step `s` shows at most
`⌊(hi - lo) / s⌋ + 1` ticks inside `[lo, hi]`. -/
theorem countIn_ticksForStep_le (vlo vhi s lo hi : ℚ) (hs : 0 < s)
    (hlh : lo ≤ hi) :
    countIn (ticksForStep vlo vhi s) lo hi ≤ (⌊(hi - lo) / s⌋).toNat + 1 := by
  simp only [countIn, ticksForStep]
  rw [length_filter_map_range]
  set best := (⌊vlo / s⌋ : ℚ) * s with hbest
  set low : ℤ := ⌊(vlo - best) / s⌋ with hlow
  set a : ℤ := ⌈(lo - best) / s⌉ with ha
  set b : ℤ := ⌊(hi - best) / s⌋ with hb
  have hstep := filter_range_card_le
    ((⌈(vhi - best) / s⌉ + 1 - low).toNat)
    (fun k : ℕ => inRange lo hi (((low : ℚ) + ((k : ℤ) : ℚ)) * s + best))
    (a - low) (b - low) ?_
  · refine le_trans hstep ?_
    have hba : b - a ≤ ⌊(hi - lo) / s⌋ := by
      rcases le_or_lt a b with hab | hab
      · apply Int.le_floor.2
        push_cast
        have h1 : ((b : ℤ) : ℚ) ≤ (hi - best) / s := Int.floor_le _
        have h2 : (lo - best) / s ≤ ((a : ℤ) : ℚ) := Int.le_ceil _
        have heq : (hi - best) / s - (lo - best) / s = (hi - lo) / s := by
          rw [div_sub_div_same]
          ring_nf
        linarith
      · have hq : (0 : ℚ) ≤ (hi - lo) / s := div_nonneg (by linarith) hs.le
        have := Int.floor_nonneg.2 hq
        omega
    have hfl : 0 ≤ ⌊(hi - lo) / s⌋ :=
      Int.floor_nonneg.2 (div_nonneg (by linarith) hs.le)
    omega
  · intro k hk
    simp only [inRange, Bool.and_eq_true, decide_eq_true_eq] at hk
    obtain ⟨h1, h2⟩ := hk
    have hub : ((low : ℚ) + ((k : ℤ) : ℚ)) ≤ (hi - best) / s := by
      rw [le_div_iff hs]
      push_cast
      push_cast at h1 h2
      linarith
    have hlb : (lo - best) / s ≤ ((low : ℚ) + ((k : ℤ) : ℚ)) := by
      rw [div_le_iff hs]
      push_cast
      push_cast at h1 h2
      linarith
    rw [show ((low : ℚ) + ((k : ℤ) : ℚ)) = (((low + (k : ℤ)) : ℤ) : ℚ)
      by push_cast; ring] at hub hlb
    have hub' : low + (k : ℤ) ≤ b := Int.le_floor.2 hub
    have hlb' : a ≤ low + (k : ℤ) := Int.ceil_le.2 hlb
    omega

/-- Lower bound driving the step search: as soon as the interval spans at
least three steps, the tick array shows at least `min_n_ticks = 2` ticks. -/
theorem countIn_ticksForStep_ge_two (vlo vhi s : ℚ) (hs : 0 < s)
    (h3 : 3 * s ≤ vhi - vlo) :
    2 ≤ countIn (ticksForStep vlo vhi s) vlo vhi := by
  simp only [countIn, ticksForStep]
  rw [length_filter_map_range]
  set best := (⌊vlo / s⌋ : ℚ) * s with hbest
  have hfr : (vlo - best) / s = Int.fract (vlo / s) := by
    rw [Int.fract, hbest]
    field_simp
    ring
  have hlow : ⌊(vlo - best) / s⌋ = 0 := by
    rw [hfr]
    exact Int.floor_fract _
  have hfr0 : 0 ≤ (vlo - best) / s := by
    rw [hfr]
    exact Int.fract_nonneg _
  have hfr1 : (vlo - best) / s < 1 := by
    rw [hfr]
    exact Int.fract_lt_one _
  have hbl : 0 ≤ vlo - best := by
    by_contra hneg
    push_neg at hneg
    have : (vlo - best) / s < 0 := div_neg_of_neg_of_pos hneg hs
    linarith
  have hbu : vlo - best < s := by
    have := (div_lt_one hs).1 hfr1
    linarith
  set a : ℤ := ⌈(vlo - best) / s⌉ with ha
  have ha0 : 0 ≤ a := Int.ceil_nonneg hfr0
  have ha1 : a ≤ 1 := Int.ceil_le.2 (by linarith)
  have hvhib : 3 * s ≤ vhi - best := by linarith
  have hhigh3 : 3 ≤ ⌈(vhi - best) / s⌉ := by
    have h2lt : ((2 : ℤ) : ℚ) < (vhi - best) / s := by
      push_cast
      rw [lt_div_iff hs]
      linarith
    have hlt := Int.lt_ceil.2 h2lt
    omega
  rw [hlow]
  set N : ℕ := (⌈(vhi - best) / s⌉ + 1 - 0).toNat with hN
  have hN4 : 4 ≤ N := by
    rw [hN]
    omega
  set pf : ℕ → Bool :=
    (fun k : ℕ =>
      inRange vlo vhi (((((0 : ℤ)) : ℚ) + ((k : ℤ) : ℚ)) * s + best)) with hpf
  have hsat : ∀ k : ℕ, (k : ℤ) = a ∨ (k : ℤ) = a + 1 → pf k = true := by
    intro k hk
    rw [hpf]
    simp only [inRange, Bool.and_eq_true, decide_eq_true_eq]
    have hceil := Int.le_ceil ((vlo - best) / s)
    have hklb : (vlo - best) / s ≤ ((k : ℤ) : ℚ) := by
      rcases hk with hk | hk
      · rw [hk]
        exact_mod_cast hceil
      · rw [hk]
        push_cast
        push_cast at hceil
        linarith
    have hkub : ((k : ℤ) : ℚ) ≤ 2 := by
      rcases hk with hk | hk
      · rw [hk]
        exact_mod_cast (by omega : a ≤ 2)
      · rw [hk]
        exact_mod_cast (by omega : a + 1 ≤ 2)
    have h1 := (div_le_iff hs).1 hklb
    have h2 : ((k : ℤ) : ℚ) * s ≤ 2 * s := mul_le_mul_of_nonneg_right hkub hs.le
    constructor
    · push_cast
      push_cast at h1
      linarith
    · push_cast
      push_cast at h2
      linarith
  have hmem : ∀ k : ℕ, (k : ℤ) = a ∨ (k : ℤ) = a + 1 →
      k ∈ (List.range N).filter pf := by
    intro k hk
    rw [List.mem_filter, List.mem_range]
    refine ⟨?_, hsat k hk⟩
    rcases hk with hk | hk <;> omega
  have hk1 := hmem a.toNat (Or.inl (by omega))
  have hk2 := hmem (a.toNat + 1) (Or.inr (by omega))
  have hnodup : ((List.range N).filter pf).Nodup := (List.nodup_range N).filter _
  have hsub : ({a.toNat, a.toNat + 1} : Finset ℕ) ⊆
      ((List.range N).filter pf).toFinset := by
    rw [Finset.insert_subset_iff, Finset.singleton_subset_iff]
    exact ⟨List.mem_toFinset.2 hk1, List.mem_toFinset.2 hk2⟩
  have hpair : ({a.toNat, a.toNat + 1} : Finset ℕ).card = 2 :=
    Finset.card_pair (by omega)
  have hfin := Finset.card_le_card hsub
  rw [hpair, List.toFinset_card_of_nodup hnodup] at hfin
  exact hfin

/-- The step the staircase walk selects: the scaled staircase starts below
any `r ∈ [scale, 10 scale)` and its steps never more than double, so the
first step at or above `r` lies in `[r, 2 r]`. -/
theorem firstGE_head (r scale : ℚ) (hscale : 0 < scale) (hlo : scale ≤ r)
    (hhi : r < 10 * scale) :
    ∃ s1 rest,
      firstGE r [] (extendedSteps.map (fun e => e * scale)) = s1 :: rest ∧
      r ≤ s1 ∧ s1 ≤ 2 * r := by
  have hmap : extendedSteps.map (fun e => e * scale) =
      [1/10 * scale, 1/5 * scale, 1/4 * scale, 1/2 * scale, 1 * scale,
       2 * scale, 5/2 * scale, 5 * scale, 10 * scale, 100 * scale] := rfl
  rw [hmap]
  have h0 : ¬ (r ≤ 1/10 * scale) := by push_neg; linarith
  have h1 : ¬ (r ≤ 1/5 * scale) := by push_neg; linarith
  have h2 : ¬ (r ≤ 1/4 * scale) := by push_neg; linarith
  have h3 : ¬ (r ≤ 1/2 * scale) := by push_neg; linarith
  rcases le_or_lt r (1 * scale) with c | c1
  · refine ⟨1 * scale,
      [1/2 * scale, 1/4 * scale, 1/5 * scale, 1/10 * scale], ?_, c,
      by linarith⟩
    rw [firstGE, if_neg h0, firstGE, if_neg h1, firstGE, if_neg h2,
      firstGE, if_neg h3, firstGE, if_pos c]
  · have c1' : ¬ (r ≤ 1 * scale) := not_le.2 c1
    rcases le_or_lt r (2 * scale) with c | c2
    · refine ⟨2 * scale,
        [1 * scale, 1/2 * scale, 1/4 * scale, 1/5 * scale, 1/10 * scale],
        ?_, c, by linarith⟩
      rw [firstGE, if_neg h0, firstGE, if_neg h1, firstGE, if_neg h2,
        firstGE, if_neg h3, firstGE, if_neg c1', firstGE, if_pos c]
    · have c2' : ¬ (r ≤ 2 * scale) := not_le.2 c2
      rcases le_or_lt r (5/2 * scale) with c | c3
      · refine ⟨5/2 * scale,
          [2 * scale, 1 * scale, 1/2 * scale, 1/4 * scale, 1/5 * scale,
           1/10 * scale], ?_, c, by linarith⟩
        rw [firstGE, if_neg h0, firstGE, if_neg h1, firstGE, if_neg h2,
          firstGE, if_neg h3, firstGE, if_neg c1', firstGE, if_neg c2',
          firstGE, if_pos c]
      · have c3' : ¬ (r ≤ 5/2 * scale) := not_le.2 c3
        rcases le_or_lt r (5 * scale) with c | c4
        · refine ⟨5 * scale,
            [5/2 * scale, 2 * scale, 1 * scale, 1/2 * scale, 1/4 * scale,
             1/5 * scale, 1/10 * scale], ?_, c, by linarith⟩
          rw [firstGE, if_neg h0, firstGE, if_neg h1, firstGE, if_neg h2,
            firstGE, if_neg h3, firstGE, if_neg c1', firstGE, if_neg c2',
            firstGE, if_neg c3', firstGE, if_pos c]
        · have c4' : ¬ (r ≤ 5 * scale) := not_le.2 c4
          have c5 : r ≤ 10 * scale := le_of_lt hhi
          refine ⟨10 * scale,
            [5 * scale, 5/2 * scale, 2 * scale, 1 * scale, 1/2 * scale,
             1/4 * scale, 1/5 * scale, 1/10 * scale], ?_, c5, by linarith⟩
          rw [firstGE, if_neg h0, firstGE, if_neg h1, firstGE, if_neg h2,
            firstGE, if_neg h3, firstGE, if_neg c1', firstGE, if_neg c2',
            firstGE, if_neg c3', firstGE, if_neg c4', firstGE, if_pos c5]

/-- The downward step search stops at its first candidate as soon as that
candidate already shows two ticks. -/
theorem stepSearch_break (vlo vhi s : ℚ) (rest : List ℚ)
    (h2 : 2 ≤ countIn (ticksForStep vlo vhi s) vlo vhi) :
    stepSearch vlo vhi (s :: rest) = ticksForStep vlo vhi s := by
  cases rest with
  | nil => rfl
  | cons s' r' => rw [stepSearch, if_pos h2]

/-- The scale returned by `scale_range` on a nondegenerate interval. -/
theorem scale_range_fst (vmin vmax : ℚ) (n : ℕ) (h : vmin < vmax) :
    (scale_range vmin vmax n).1 = (10 : ℚ) ^ intLog10 (|vmax - vmin| / n) := by
  simp only [scale_range]
  rw [if_neg ?hne]
  case hne =>
    intro h0
    have h1 : |vmax| = 0 :=
      le_antisymm (h0 ▸ le_max_left _ _) (abs_nonneg _)
    have h2 : |vmin| = 0 :=
      le_antisymm (h0 ▸ le_max_right _ _) (abs_nonneg _)
    rw [abs_eq_zero] at h1 h2
    rw [h1, h2] at h
    exact lt_irrefl 0 h

/-- `nonsingular` only expands: its output interval contains the input one
and is nondegenerate. -/
theorem nonsingular_spec (expander tiny lo hi : ℚ) (h : lo ≤ hi)
    (hexp : 0 < expander) (htiny : 0 < tiny)
    (hBe : ((10 : ℚ) ^ (6 : ℕ) / tiny) * dblTiny ≤ expander) :
    (nonsingular expander tiny lo hi).1 ≤ lo ∧
    hi ≤ (nonsingular expander tiny lo hi).2 ∧
    (nonsingular expander tiny lo hi).1 < (nonsingular expander tiny lo hi).2 := by
  have hBpos : (0 : ℚ) < (10 : ℚ) ^ (6 : ℕ) / tiny * dblTiny := by
    apply mul_pos (div_pos (by positivity) htiny)
    rw [dblTiny]
    positivity
  have hepos : (0 : ℚ) < expander := hexp
  simp only [nonsingular]
  rw [if_neg (not_lt.2 h)]
  dsimp only
  split
  · next hb1 =>
    have hlo : |lo| ≤ expander :=
      le_trans (le_trans (le_max_left _ _) hb1.le) hBe
    have hhi : |hi| ≤ expander :=
      le_trans (le_trans (le_max_right _ _) hb1.le) hBe
    have hlo' := abs_le.1 hlo
    have hhi' := abs_le.1 hhi
    refine ⟨hlo'.1, hhi'.2, ?_⟩
    dsimp only
    linarith
  · next hb1 =>
    split
    · next hb2 =>
      split
      · next hz =>
        obtain ⟨hz1, hz2⟩ := hz
        rw [hz1, hz2]
        refine ⟨?_, ?_, ?_⟩ <;> dsimp only <;> linarith
      · next hz =>
        have habs : 0 < |lo| + |hi| := by
          by_contra hc
          push_neg at hc
          have h1 : |lo| = 0 :=
            le_antisymm (by linarith [abs_nonneg lo, abs_nonneg hi])
              (abs_nonneg _)
          have h2 : |hi| = 0 :=
            le_antisymm (by linarith [abs_nonneg lo, abs_nonneg hi])
              (abs_nonneg _)
          rw [abs_eq_zero] at h1 h2
          exact hz ⟨h2, h1⟩
        refine ⟨?_, ?_, ?_⟩ <;> dsimp only
        · nlinarith [abs_nonneg lo, hepos]
        · nlinarith [abs_nonneg hi, hepos]
        · nlinarith [hepos, habs]
    · next hb2 =>
      push_neg at hb1 hb2
      have hmt : 0 < max |lo| |hi| * tiny :=
        mul_pos (lt_of_lt_of_le hBpos hb1) htiny
      refine ⟨le_refl lo, le_refl hi, ?_⟩
      dsimp only
      linarith

/-- A left fold of `min` is below its seed. -/
theorem foldl_min_le_self : ∀ (l : List ℚ) (q : ℚ), l.foldl min q ≤ q := by
  intro l
  induction l with
  | nil => intro q; exact le_refl q
  | cons a t ih => intro q; exact le_trans (ih (min q a)) (min_le_left q a)

/-- A left fold of `max` is above its seed. -/
theorem self_le_foldl_max : ∀ (l : List ℚ) (q : ℚ), q ≤ l.foldl max q := by
  intro l
  induction l with
  | nil => intro q; exact le_refl q
  | cons a t ih => intro q; exact le_trans (le_max_left q a) (ih (max q a))

/-- A column's min never exceeds its max. -/
theorem seriesMinMax_le (vs : List ColVal) (lo hi : ℚ)
    (h : seriesMinMax vs = Except.ok (some (lo, hi))) : lo ≤ hi := by
  unfold seriesMinMax at h
  rcases hnum : numsOf vs with _ | qs
  · rw [hnum] at h
    simp at h
  · rw [hnum] at h
    rcases qs with _ | ⟨q, qs'⟩
    · simp at h
    · simp only [Except.ok.injEq, Option.some.injEq, Prod.mk.injEq] at h
      obtain ⟨h1, h2⟩ := h
      rw [← h1, ← h2]
      exact le_trans (foldl_min_le_self qs' q) (self_le_foldl_max qs' q)

/-- Master bound: clipped to the colorbar's view interval, the model of
`MaxNLocator(nbins=6).tick_values` never shows more than seven ticks. -/
theorem tickCount_le_seven (lo hi : ℚ) (h : lo ≤ hi) :
    countIn (tick_values 6 lo hi) lo hi ≤ 7 := by
  obtain ⟨h1, h2, h3⟩ := nonsingular_spec (1 / 10 ^ (13 : ℕ))
    (1 / 10 ^ (14 : ℕ)) lo hi h (by positivity) (by positivity)
    (by norm_num [dblTiny])
  simp only [tick_values, _raw_ticks]
  set lo' := (nonsingular (1 / 10 ^ (13 : ℕ)) (1 / 10 ^ (14 : ℕ)) lo hi).1
    with hlo'
  set hi' := (nonsingular (1 / 10 ^ (13 : ℕ)) (1 / 10 ^ (14 : ℕ)) lo hi).2
    with hhi'
  set offset := (scale_range lo' hi' 6).2 with hoffset
  have hdv : 0 < hi' - lo' := by linarith
  set q : ℚ := (hi' - lo') / 6 with hq
  have hqpos : 0 < q := by positivity
  have hscale : (scale_range lo' hi' 6).1 = (10 : ℚ) ^ intLog10 q := by
    rw [scale_range_fst lo' hi' 6 h3]
    congr 2
    rw [abs_of_pos hdv]
    norm_num
  set scale := (scale_range lo' hi' 6).1 with hscaledef
  have hspos : 0 < scale := by
    rw [hscale]
    positivity
  obtain ⟨hsle, hslt⟩ := intLog10_spec q hqpos
  rw [← hscale] at hsle
  have hslt' : q < 10 * scale := by
    have : (10 : ℚ) ^ (intLog10 q + 1) = (10 : ℚ) ^ intLog10 q * 10 := by
      rw [zpow_add_one₀ (by norm_num : (10 : ℚ) ≠ 0)]
    rw [this, ← hscale] at hslt
    linarith
  have hraw : (hi' - offset - (lo' - offset)) / ((6 : ℕ) : ℚ) = q := by
    push_cast
    rw [hq]
    ring_nf
  rw [hraw]
  obtain ⟨s1, rest, heq, hr1, hr2⟩ := firstGE_head q scale hspos hsle hslt'
  rw [heq]
  have hs1pos : 0 < s1 := lt_of_lt_of_le hqpos hr1
  have hbreak := stepSearch_break (lo' - offset) (hi' - offset) s1 rest ?_
  · rw [hbreak, countIn_map_add]
    refine le_trans (countIn_ticksForStep_le (lo' - offset) (hi' - offset) s1
      (lo - offset) (hi - offset) hs1pos (by linarith)) ?_
    have heqd : hi - offset - (lo - offset) = hi - lo := by ring
    rw [heqd]
    have hle6 : (hi - lo) / s1 ≤ 6 := by
      rw [div_le_iff hs1pos]
      have hsub : hi - lo ≤ hi' - lo' := by linarith
      have h6q : hi' - lo' = 6 * q := by
        rw [hq]
        ring
      linarith
    have hfloor : ⌊(hi - lo) / s1⌋ ≤ 6 := by
      have := Int.floor_le_floor hle6
      simpa using this
    omega
  · apply countIn_ticksForStep_ge_two _ _ _ hs1pos
    have h6q : hi' - offset - (lo' - offset) = 6 * q := by
      rw [hq]
      ring
    rw [h6q]
    linarith

/-- C5 counterexample: the claim that a colorbar never shows more than six
ticks fails — `MaxNLocator(nbins=6)` caps the number of *intervals* at six,
so on a column ranging over `[0, 6]` the colorbar displays the seven ticks
`0, 1, 2, 3, 4, 5, 6`. -/
theorem C5_ticks_counterexample :
    ∃ fig a w', draw_counties_map W0 (some G6) (some "pop") none =
        (Except.ok (fig, a), w') ∧
      ∃ cb, fig.colorbars = [cb] ∧ cb.displayedTicks.length = 7 := by
  refine ⟨_, _, _, rfl, _, rfl, ?_⟩
  decide

/-- C5 (amended): for every colorbar produced by a data-driven draw call
(either variant), the number of displayed ticks never exceeds seven (one
more than the six intervals `nbins=6` allows), every tick label is the tick
value formatted exactly per `"{:,.0f}"`, the loaded font is applied to the
tick labels, and the locator is configured with `nbins = 6`. -/
theorem C5_colorbar_ticks (w : World) (g : Gdf) (c : String)
    (cmap : Option String) (vs : List ColVal) (lo hi : ℚ) (st : Style)
    (hst : lookupStyle w.model._style_list "default" = some st)
    (hcol : g.getCol c = some vs)
    (hmm : seriesMinMax vs = Except.ok (some (lo, hi))) :
    (∃ fig a w', draw_counties_map w (some g) (some c) cmap =
        (Except.ok (fig, a), w') ∧
      ∀ cb ∈ fig.colorbars,
        cb.displayedTicks.length ≤ 7 ∧
        cb.tickLabels = cb.displayedTicks.map pyFormatCommaF0 ∧
        cb.tickLabelFont = w.model.font ∧
        cb.locatorNBins = 6) ∧
    (∃ fig a w', draw_towns_map w (some g) (some c) cmap =
        (Except.ok (fig, a), w') ∧
      ∀ cb ∈ fig.colorbars,
        cb.displayedTicks.length ≤ 7 ∧
        cb.tickLabels = cb.displayedTicks.map pyFormatCommaF0 ∧
        cb.tickLabelFont = w.model.font ∧
        cb.locatorNBins = 6) := by
  have hlh : lo ≤ hi := seriesMinMax_le vs lo hi hmm
  have hspec := nonsingular_spec (1 / 10) (1 / 10 ^ (15 : ℕ)) lo hi hlh
    (by norm_num) (by positivity) (by norm_num [dblTiny])
  constructor
  · simp only [draw_counties_map, hst, hcol, hmm]
    refine ⟨_, _, _, rfl, ?_⟩
    intro cb hcb
    simp only [List.mem_singleton] at hcb
    subst hcb
    exact ⟨tickCount_le_seven (nonsingular (1 / 10) (1 / 10 ^ (15 : ℕ)) lo hi).1
      (nonsingular (1 / 10) (1 / 10 ^ (15 : ℕ)) lo hi).2 hspec.2.2.le,
      rfl, rfl, rfl⟩
  · simp only [draw_towns_map, hst, hcol, hmm]
    refine ⟨_, _, _, rfl, ?_⟩
    intro cb hcb
    simp only [List.mem_singleton] at hcb
    subst hcb
    exact ⟨tickCount_le_seven (nonsingular (1 / 10) (1 / 10 ^ (15 : ℕ)) lo hi).1
      (nonsingular (1 / 10) (1 / 10 ^ (15 : ℕ)) lo hi).2 hspec.2.2.le,
      rfl, rfl, rfl⟩

/-- C5 witness: on the one-row fixture the counties colorbar satisfies all
amended tick properties. -/
theorem C5_colorbar_ticks_witness :
    seriesMinMax [ColVal.num 1000] = Except.ok (some (1000, 1000)) ∧
    (∃ fig a w', draw_counties_map W0 (some G0) (some "pop") none =
        (Except.ok (fig, a), w') ∧
      ∀ cb ∈ fig.colorbars,
        cb.displayedTicks.length ≤ 7 ∧
        cb.tickLabels = cb.displayedTicks.map pyFormatCommaF0 ∧
        cb.tickLabelFont = W0.model.font ∧
        cb.locatorNBins = 6) :=
  ⟨rfl, (C5_colorbar_ticks W0 G0 "pop" none [ColVal.num 1000] 1000 1000 S0
    rfl rfl rfl).1⟩

end SimpleTaiwanMap
